import Mathlib

/-!
# Ultimate AI Wrapper: the service worker's dispatch core

A shallow embedding of `src/background/service-worker.js`: the provider table, the
`state.activeTabs` registry, `getProviderTab`, `waitForTabLoad`, `sendToProvider`, the
`sendToAll` case of the message listener and the `chrome.tabs.onRemoved` listener.

The browser is an explicit environment `Env`: the `k`-th call of each capability
(`chrome.tabs.get`, `chrome.tabs.create`, `chrome.tabs.sendMessage`, `Date.now`) is answered by
an arbitrary function of `k` and of the call's arguments. The `World` threads the registry, one
call counter per capability and the log of the calls that were made.
-/

namespace UltimateAIWrapper

/-! ## Data model -/

/-- One value of the `AI_PROVIDERS` table. -/
structure Provider where
  name : String
  url : String
  icon : String
  enabled : Bool
deriving DecidableEq, Repr

/-- The table `AI_PROVIDERS` of service-worker.js, as its `Object.entries` in order. -/
def AI_PROVIDERS : List (String × Provider) :=
  [ ("chatgpt", ⟨"ChatGPT", "https://chat.openai.com", "🤖", true⟩),
    ("claude", ⟨"Claude", "https://claude.ai", "🎭", true⟩),
    ("gemini", ⟨"Gemini", "https://gemini.google.com", "✨", true⟩),
    ("perplexity", ⟨"Perplexity", "https://www.perplexity.ai", "🔍", true⟩),
    ("grok", ⟨"Grok", "https://x.ai/grok", "🦅", true⟩) ]

/-- The part of a `chrome.tabs.Tab` the service worker reads: `tab.id` and `tab.status`. -/
structure Tab where
  id : Nat
  status : String
deriving DecidableEq, Repr

/-- The values a `catch` clause of the service worker can receive. `capability` is a rejection
raised by a browser capability, `tabLoadTimeout` is the object built by
`new Error('Tab load timeout')` in `waitForTabLoad`, and `typeError` is the engine's error for
reading a property of `undefined`. -/
inductive JsError where
  | capability (message : String)
  | tabLoadTimeout
  | typeError (property : String)
deriving DecidableEq, Repr

/-- The request context: `prompt` plus the optional page fields spread into it by the sidebar. -/
structure Context where
  prompt : Option String
  url : Option String
  title : Option String
  content : Option String
  selectedText : Option String
  timestamp : Option Nat
deriving DecidableEq, Repr

/-- The message `sendToProvider` hands to `chrome.tabs.sendMessage`. -/
structure Message where
  action : String
  prompt : Option String
  context : Context
deriving DecidableEq, Repr

/-- A call the service worker made to the outside, with its arguments. -/
inductive Call where
  | tabsGet (tabId : Nat)
  | tabsCreate (url : String) (active : Bool)
  | tabsSendMessage (tabId : Nat) (message : Message)
  | setTimeout (delay : Nat)
deriving DecidableEq, Repr

/-- What the awaited result of a capability can be: a value or a rejection. -/
inductive Answer (α : Type) where
  | resolve (value : α)
  | reject (message : String)
deriving DecidableEq, Repr

/-- The browser. The first argument of each capability is the number of earlier calls of that
capability, so the answer may change from one call to the next. `chrome.tabs.get` may resolve
with `none`, the falsy value `getProviderTab` tests for. -/
structure Env where
  tabsGet : Nat → Nat → Answer (Option Tab)
  tabsCreate : Nat → String → Answer Tab
  tabsSendMessage : Nat → Nat → Message → Answer Unit
  dateNow : Nat → Int

/-- The service worker's `state.activeTabs` together with the bookkeeping of the calls made. -/
structure World where
  activeTabs : List (String × Nat)
  gets : Nat
  creates : Nat
  sends : Nat
  nows : Nat
  log : List Call
deriving DecidableEq, Repr

/-- How an `async` function ends: it returns, it throws, or it is still waiting when the
polling budget of the model is used up. -/
inductive Outcome (α : Type) where
  | returned (value : α)
  | threw (error : JsError)
  | pending
deriving DecidableEq, Repr

/-- The record `sendToProvider` returns. -/
structure DeliveryResult where
  provider : String
  status : String
  error : Option JsError
deriving DecidableEq, Repr

/-! ## The `Map` operations used on `state.activeTabs` -/

/-- `Map.prototype.get`; `none` is also the answer of `has` being false. -/
def mapGet (m : List (String × Nat)) (key : String) : Option Nat :=
  (m.find? (fun e => e.1 == key)).map (fun e => e.2)

/-- `Map.prototype.has`. -/
def mapHas (m : List (String × Nat)) (key : String) : Bool :=
  (mapGet m key).isSome

/-- `Map.prototype.delete`. -/
def mapDelete (m : List (String × Nat)) (key : String) : List (String × Nat) :=
  m.filter (fun e => e.1 != key)

/-- `Map.prototype.set`: an existing key keeps its place, a new key goes last. -/
def mapSet (m : List (String × Nat)) (key : String) (value : Nat) : List (String × Nat) :=
  if mapHas m key then m.map (fun e => if e.1 == key then (key, value) else e)
  else m ++ [(key, value)]

/-- The property read `AI_PROVIDERS[providerId]` on the table's own entries; `none` is
`undefined`. Names inherited from `Object.prototype` are not modelled. -/
def lookupProvider (cfg : List (String × Provider)) (providerId : String) : Option Provider :=
  (cfg.find? (fun e => e.1 == providerId)).map (fun e => e.2)

/-! ## AI provider tab management -/

/-- Lines 155-165 of `getProviderTab`: create a new tab for the provider and remember it. -/
def createProviderTab (env : Env) (cfg : List (String × Provider)) (providerId : String)
    (w : World) : Outcome Tab × World :=
  match lookupProvider cfg providerId with
  | none => (.threw (.typeError "url"), w)
  | some provider =>
    let w1 := { w with creates := w.creates + 1,
                       log := w.log ++ [.tabsCreate provider.url false] }
    match env.tabsCreate w.creates provider.url with
    | .reject message => (.threw (.capability message), w1)
    | .resolve tab => (.returned tab, { w1 with activeTabs := mapSet w1.activeTabs providerId tab.id })

/-- The function `getProviderTab` of service-worker.js. -/
def getProviderTab (env : Env) (cfg : List (String × Provider)) (providerId : String)
    (w : World) : Outcome Tab × World :=
  match mapGet w.activeTabs providerId with
  | some tabId =>
    let w1 := { w with gets := w.gets + 1, log := w.log ++ [.tabsGet tabId] }
    match env.tabsGet w.gets tabId with
    | .resolve (some tab) => (.returned tab, w1)
    | .resolve none => createProviderTab env cfg providerId w1
    | .reject _ =>
      createProviderTab env cfg providerId
        { w1 with activeTabs := mapDelete w1.activeTabs providerId }
  | none => createProviderTab env cfg providerId w

/-! ## Waiting for a tab to load -/

/-- The closure `checkStatus` of `waitForTabLoad`; `fuel` bounds the number of polls. -/
def checkStatus (env : Env) (tabId : Nat) (timeout startTime : Int) :
    Nat → World → Outcome Tab × World
  | 0, w => (.pending, w)
  | fuel + 1, w =>
    let w1 := { w with gets := w.gets + 1, log := w.log ++ [.tabsGet tabId] }
    match env.tabsGet w.gets tabId with
    | .reject message => (.threw (.capability message), w1)
    | .resolve none => (.threw (.typeError "status"), w1)
    | .resolve (some tab) =>
      if tab.status = "complete" then (.returned tab, w1)
      else if env.dateNow w1.nows - startTime > timeout then
        (.threw .tabLoadTimeout, { w1 with nows := w1.nows + 1 })
      else
        checkStatus env tabId timeout startTime fuel
          { w1 with nows := w1.nows + 1, log := w1.log ++ [.setTimeout 100] }

/-- The function `waitForTabLoad` of service-worker.js. -/
def waitForTabLoad (env : Env) (fuel : Nat) (tabId : Nat) (timeout : Int) (w : World) :
    Outcome Tab × World :=
  checkStatus env tabId timeout (env.dateNow w.nows) fuel { w with nows := w.nows + 1 }

/-! ## Delivery -/

/-- The `try` block of `sendToProvider`. -/
def sendToProviderBody (env : Env) (cfg : List (String × Provider)) (fuel : Nat)
    (providerId : String) (context : Option Context) (w : World) : Outcome Unit × World :=
  match getProviderTab env cfg providerId w with
  | (.pending, w1) => (.pending, w1)
  | (.threw e, w1) => (.threw e, w1)
  | (.returned tab, w1) =>
    match waitForTabLoad env fuel tab.id 10000 w1 with
    | (.pending, w2) => (.pending, w2)
    | (.threw e, w2) => (.threw e, w2)
    | (.returned _, w2) =>
      match context with
      | none => (.threw (.typeError "prompt"), w2)
      | some ctx =>
        let message : Message := ⟨"sendPrompt", ctx.prompt, ctx⟩
        let w3 := { w2 with sends := w2.sends + 1,
                            log := w2.log ++ [.tabsSendMessage tab.id message] }
        match env.tabsSendMessage w2.sends tab.id message with
        | .reject m => (.threw (.capability m), w3)
        | .resolve _ => (.returned (), w3)

/-- The function `sendToProvider` of service-worker.js. -/
def sendToProvider (env : Env) (cfg : List (String × Provider)) (fuel : Nat)
    (providerId : String) (context : Option Context) (w : World) :
    Outcome DeliveryResult × World :=
  match sendToProviderBody env cfg fuel providerId context w with
  | (.returned _, w1) => (.returned ⟨providerId, "sent", none⟩, w1)
  | (.threw error, w1) => (.returned ⟨providerId, "error", some error⟩, w1)
  | (.pending, w1) => (.pending, w1)

/-- The loop of the `sendToAll` case of the `chrome.runtime.onMessage` listener. -/
def sendToAllLoop (env : Env) (cfg : List (String × Provider)) (fuel : Nat)
    (context : Option Context) :
    List (String × Provider) → List DeliveryResult → World →
      Outcome (List DeliveryResult) × World
  | [], results, w => (.returned results, w)
  | (key, provider) :: rest, results, w =>
    if provider.enabled then
      match sendToProvider env cfg fuel key context w with
      | (.returned result, w1) => sendToAllLoop env cfg fuel context rest (results ++ [result]) w1
      | (.threw e, w1) => (.threw e, w1)
      | (.pending, w1) => (.pending, w1)
    else sendToAllLoop env cfg fuel context rest results w

/-- The `sendToAll` case of the `chrome.runtime.onMessage` listener: the `results` of its
response. -/
def sendToAll (env : Env) (cfg : List (String × Provider)) (fuel : Nat)
    (context : Option Context) (w : World) : Outcome (List DeliveryResult) × World :=
  sendToAllLoop env cfg fuel context cfg [] w

/-! ## Tab monitoring -/

/-- The `chrome.tabs.onRemoved` listener, on the registry. -/
def onRemoved (tabId : Nat) (m : List (String × Nat)) : List (String × Nat) :=
  match m.find? (fun e => e.2 == tabId) with
  | some (provider, _) => mapDelete m provider
  | none => m

/-! ## `getProviderTab` between the turns of the event loop

Each `await` of `getProviderTab` ends a turn: the call is issued, and the function continues in
a later turn with the answer. Other code (a second call of `getProviderTab`, the `onRemoved`
listener) can run between the two turns. -/

/-- Where one call of `getProviderTab` stands: suspended at `await chrome.tabs.get`, suspended
at `await chrome.tabs.create` (each with the answer it will wake up with), or finished. -/
inductive Acquisition where
  | awaitingGet (answer : Answer (Option Tab))
  | awaitingCreate (answer : Answer Tab)
  | finished (outcome : Outcome Tab)
deriving DecidableEq, Repr

/-- Lines 155-160 of `getProviderTab`, up to the `await` of `chrome.tabs.create`. -/
def issueCreate (env : Env) (cfg : List (String × Provider)) (providerId : String)
    (w : World) : Acquisition × World :=
  match lookupProvider cfg providerId with
  | none => (.finished (.threw (.typeError "url")), w)
  | some provider =>
    (.awaitingCreate (env.tabsCreate w.creates provider.url),
      { w with creates := w.creates + 1, log := w.log ++ [.tabsCreate provider.url false] })

/-- The first turn of `getProviderTab`: from the call to its first `await`. -/
def getProviderTabStart (env : Env) (cfg : List (String × Provider)) (providerId : String)
    (w : World) : Acquisition × World :=
  match mapGet w.activeTabs providerId with
  | some tabId =>
    (.awaitingGet (env.tabsGet w.gets tabId),
      { w with gets := w.gets + 1, log := w.log ++ [.tabsGet tabId] })
  | none => issueCreate env cfg providerId w

/-- A later turn of `getProviderTab`: from the `await` it was suspended at to the next one, or
to its end. -/
def getProviderTabResume (env : Env) (cfg : List (String × Provider)) (providerId : String) :
    Acquisition → World → Acquisition × World
  | .awaitingGet (.resolve (some tab)), w => (.finished (.returned tab), w)
  | .awaitingGet (.resolve none), w => issueCreate env cfg providerId w
  | .awaitingGet (.reject _), w =>
    issueCreate env cfg providerId { w with activeTabs := mapDelete w.activeTabs providerId }
  | .awaitingCreate (.resolve tab), w =>
    (.finished (.returned tab), { w with activeTabs := mapSet w.activeTabs providerId tab.id })
  | .awaitingCreate (.reject message), w => (.finished (.threw (.capability message)), w)
  | .finished outcome, w => (.finished outcome, w)

/-- Two calls of `getProviderTab(providerId)` in flight at the same time: the second call
starts while the first is suspended at its `await`, and then the two are resumed, the first one
first or the second one first. The result is the state each call ends its turn in, and the
world. -/
def racingAcquisitions (env : Env) (cfg : List (String × Provider)) (providerId : String)
    (firstResumesFirst : Bool) (w : World) : (Acquisition × Acquisition) × World :=
  let s1 := getProviderTabStart env cfg providerId w
  let s2 := getProviderTabStart env cfg providerId s1.2
  if firstResumesFirst then
    let r1 := getProviderTabResume env cfg providerId s1.1 s2.2
    let r2 := getProviderTabResume env cfg providerId s2.1 r1.2
    ((r1.1, r2.1), r2.2)
  else
    let r2 := getProviderTabResume env cfg providerId s2.1 s2.2
    let r1 := getProviderTabResume env cfg providerId s1.1 r2.2
    ((r1.1, r2.1), r1.2)

/-! ## Sequences of acquisitions and close notifications -/

/-- An event at the registry: a whole `getProviderTab` call, or a `tabs.onRemoved`
notification. -/
inductive RegistryEvent where
  | acquire (providerId : String)
  | close (tabId : Nat)
deriving DecidableEq, Repr

/-- The world after one registry event. -/
def applyEvent (env : Env) (cfg : List (String × Provider)) (w : World) :
    RegistryEvent → World
  | .acquire providerId => (getProviderTab env cfg providerId w).2
  | .close tabId => { w with activeTabs := onRemoved tabId w.activeTabs }

/-- The world after a sequence of registry events. -/
def applyEvents (env : Env) (cfg : List (String × Provider)) (w : World)
    (events : List RegistryEvent) : World :=
  events.foldl (applyEvent env cfg) w

/-- The session ids of the close notifications among the events. -/
def closedIds : List RegistryEvent → List Nat
  | [] => []
  | .acquire _ :: rest => closedIds rest
  | .close tabId :: rest => tabId :: closedIds rest

/-- The world of a freshly started service worker: `activeTabs` is `new Map()`. -/
def World.initial : World := ⟨[], 0, 0, 0, 0, []⟩

/-! ## Browsers used in the examples -/

/-- A browser in which every tab exists and is loaded, the `k`-th created tab has id `100 + k`,
every message is delivered and the clock advances 100 ms per reading. -/
def readyBrowser : Env where
  tabsGet := fun _ tabId => .resolve (some ⟨tabId, "complete"⟩)
  tabsCreate := fun k _ => .resolve ⟨100 + k, "loading"⟩
  tabsSendMessage := fun _ _ _ => .resolve ()
  dateNow := fun k => 1000 + 100 * k

/-- A browser in which every tab exists but never finishes loading. -/
def loadingBrowser : Env where
  tabsGet := fun _ tabId => .resolve (some ⟨tabId, "loading"⟩)
  tabsCreate := fun k _ => .resolve ⟨100 + k, "loading"⟩
  tabsSendMessage := fun _ _ _ => .resolve ()
  dateNow := fun k => 1000 + 100 * k

/-- A browser in which a tab is loading for two status queries and gone afterwards. -/
def lostBrowser : Env where
  tabsGet := fun k tabId =>
    if k < 2 then .resolve (some ⟨tabId, "loading"⟩) else .reject "No tab with id"
  tabsCreate := fun k _ => .resolve ⟨100 + k, "loading"⟩
  tabsSendMessage := fun _ _ _ => .resolve ()
  dateNow := fun k => 1000 + 100 * k

/-- A browser in which no tab known to the registry exists any more. -/
def staleBrowser : Env where
  tabsGet := fun _ _ => .reject "No tab with id"
  tabsCreate := fun k _ => .resolve ⟨100 + k, "loading"⟩
  tabsSendMessage := fun _ _ _ => .resolve ()
  dateNow := fun k => 1000 + 100 * k

/-- A request context that carries only a prompt. -/
def helloContext : Context := ⟨some "hello", none, none, none, none, none⟩

/-- The browser never issues a session id twice: two `chrome.tabs.create` calls that resolve
with the same tab id are the same call. -/
def FreshIds (env : Env) : Prop :=
  ∀ i j u v a b, env.tabsCreate i u = .resolve a → env.tabsCreate j v = .resolve b →
    a.id = b.id → i = j

/-- A session id that has been reported closed is not issued afterwards: at each close
notification for `t` in the sequence, no later `chrome.tabs.create` call resolves with id
`t`. -/
def ClosedNotReissued (env : Env) (cfg : List (String × Provider)) :
    World → List RegistryEvent → Prop
  | _, [] => True
  | w, .acquire providerId :: rest =>
    ClosedNotReissued env cfg (applyEvent env cfg w (.acquire providerId)) rest
  | w, .close tabId :: rest =>
    (∀ j u tab, w.creates ≤ j → env.tabsCreate j u = .resolve tab → tab.id ≠ tabId) ∧
      ClosedNotReissued env cfg (applyEvent env cfg w (.close tabId)) rest

/-- The invariant of the registry `reg` after `creates` calls of `chrome.tabs.create` and close
notifications for the ids in `closed`: one entry per provider, one provider per session, every
session issued by an earlier `chrome.tabs.create`, and no closed session bound or still to be
issued. -/
def RegistryOk (env : Env) (reg : List (String × Nat)) (creates : Nat)
    (closed : List Nat) : Prop :=
  (reg.map (fun e => e.1)).Nodup ∧
    (∀ e₁ ∈ reg, ∀ e₂ ∈ reg, e₁.2 = e₂.2 → e₁.1 = e₂.1) ∧
    (∀ e ∈ reg, ∃ k u tab, k < creates ∧ env.tabsCreate k u = .resolve tab ∧ tab.id = e.2) ∧
    (∀ t ∈ closed, (∀ e ∈ reg, e.2 ≠ t) ∧
      ∀ j u tab, creates ≤ j → env.tabsCreate j u = .resolve tab → tab.id ≠ t)

/-! ## The polls of `waitForTabLoad` -/

/-- The calls logged by `n` polls that each found the tab still loading and re-armed the
timer. -/
def pollLog (tabId : Nat) : Nat → List Call
  | 0 => []
  | n + 1 => [.tabsGet tabId, .setTimeout 100] ++ pollLog tabId n

/-- The world after `n` polls that each found the tab still loading and re-armed the timer. -/
def afterPolls (tabId : Nat) (n : Nat) (w : World) : World :=
  { w with gets := w.gets + n, nows := w.nows + n, log := w.log ++ pollLog tabId n }

/-- The elapsed time `Date.now() - startTime` read at poll `k` of a wait started in `w`. -/
def elapsedAt (env : Env) (w : World) (k : Nat) : Int :=
  env.dateNow (w.nows + 1 + k) - env.dateNow w.nows

/-! ## Facts about the `Map` operations -/

theorem mapGet_nil (key : String) : mapGet [] key = none := rfl

theorem mapGet_cons (e : String × Nat) (m : List (String × Nat)) (key : String) :
    mapGet (e :: m) key = if e.1 = key then some e.2 else mapGet m key := by
  by_cases h : e.1 = key <;> simp [mapGet, List.find?_cons, h]

theorem mapGet_eq_none_iff (m : List (String × Nat)) (key : String) :
    mapGet m key = none ↔ ∀ e ∈ m, e.1 ≠ key := by
  induction m with
  | nil => simp [mapGet_nil]
  | cons e m ih =>
    rw [mapGet_cons]
    by_cases h : e.1 = key
    · simp [h]
    · simp [h, ih]

theorem mapGet_mem (m : List (String × Nat)) (key : String) (v : Nat)
    (h : mapGet m key = some v) : (key, v) ∈ m := by
  induction m with
  | nil => simp [mapGet_nil] at h
  | cons e m ih =>
    rw [mapGet_cons] at h
    by_cases hk : e.1 = key
    · simp only [hk, if_true, Option.some.injEq] at h
      have : e = (key, v) := by
        cases e
        simp_all
      simp [this]
    · simp only [hk, if_false] at h
      exact List.mem_cons_of_mem _ (ih h)

theorem mapGet_mapDelete_self (m : List (String × Nat)) (key : String) :
    mapGet (mapDelete m key) key = none := by
  rw [mapGet_eq_none_iff]
  intro e he
  simp only [mapDelete, List.mem_filter, bne_iff_ne, ne_eq] at he
  exact he.2

theorem mapSet_of_absent (m : List (String × Nat)) (key : String) (v : Nat)
    (h : mapGet m key = none) : mapSet m key v = m ++ [(key, v)] := by
  simp [mapSet, mapHas, h]

theorem mapGet_mapSet_self (m : List (String × Nat)) (key : String) (v : Nat) :
    mapGet (mapSet m key v) key = some v := by
  unfold mapSet
  by_cases hhas : mapHas m key = true
  · simp only [hhas, if_true]
    induction m with
    | nil => simp [mapHas, mapGet_nil] at hhas
    | cons e m ih =>
      rw [List.map_cons, mapGet_cons]
      by_cases hk : e.1 = key
      · simp [hk]
      · have hk2 : ¬ (e.1 == key) = true := by simpa using hk
        simp only [hk2, Bool.false_eq_true, if_false, hk]
        apply ih
        simpa [mapHas, mapGet_cons, hk] using hhas
  · simp only [hhas, Bool.false_eq_true, if_false]
    have hnone : mapGet m key = none := by
      simpa [mapHas] using hhas
    induction m with
    | nil => simp [mapGet_cons]
    | cons e m ih =>
      rw [mapGet_cons] at hnone
      by_cases hk : e.1 = key
      · simp [hk] at hnone
      · simp only [hk, if_false] at hnone
        rw [List.cons_append, mapGet_cons]
        simp only [hk, if_false]
        exact ih (by simp [mapHas, hnone]) hnone

theorem mem_mapDelete (m : List (String × Nat)) (key : String) (e : String × Nat) :
    e ∈ mapDelete m key ↔ e ∈ m ∧ e.1 ≠ key := by
  simp [mapDelete, List.mem_filter]

theorem mapDelete_keys_nodup (m : List (String × Nat)) (key : String)
    (h : (m.map (fun e => e.1)).Nodup) : ((mapDelete m key).map (fun e => e.1)).Nodup :=
  h.sublist ((List.filter_sublist m).map _)

theorem mem_mapSet (m : List (String × Nat)) (key : String) (v : Nat) (e : String × Nat)
    (h : e ∈ mapSet m key v) : e = (key, v) ∨ (e ∈ m ∧ e.1 ≠ key) := by
  unfold mapSet at h
  by_cases hhas : mapHas m key = true
  · simp only [hhas, if_true, List.mem_map] at h
    obtain ⟨a, ha, hfa⟩ := h
    by_cases hk : a.1 = key
    · left
      simpa [hk] using hfa.symm
    · right
      have : a = e := by simpa [hk] using hfa
      subst this
      exact ⟨ha, hk⟩
  · simp only [hhas, Bool.false_eq_true, if_false, List.mem_append, List.mem_singleton] at h
    have hnone : mapGet m key = none := by simpa [mapHas] using hhas
    rcases h with h | h
    · exact Or.inr ⟨h, (mapGet_eq_none_iff m key).mp hnone e h⟩
    · exact Or.inl h

theorem mapSet_keys_nodup (m : List (String × Nat)) (key : String) (v : Nat)
    (h : (m.map (fun e => e.1)).Nodup) : ((mapSet m key v).map (fun e => e.1)).Nodup := by
  unfold mapSet
  by_cases hhas : mapHas m key = true
  · simp only [hhas, if_true, List.map_map]
    have hfun : ((fun e : String × Nat => e.1) ∘
        fun e : String × Nat => if (e.1 == key) = true then (key, v) else e)
        = fun e => e.1 := by
      funext e
      by_cases hk : e.1 = key <;> simp [hk]
    rw [hfun]
    exact h
  · simp only [hhas, Bool.false_eq_true, if_false, List.map_append, List.map_cons,
      List.map_nil]
    have hnone : mapGet m key = none := by simpa [mapHas] using hhas
    rw [List.nodup_append]
    refine ⟨h, List.nodup_singleton _, ?_⟩
    intro a ha hb
    rw [List.mem_singleton] at hb
    subst hb
    rw [List.mem_map] at ha
    obtain ⟨e, he, hea⟩ := ha
    exact (mapGet_eq_none_iff m _).mp hnone e he hea

/-! ## The registry invariant -/

theorem registryOk_nil (env : Env) (creates : Nat) : RegistryOk env [] creates [] := by
  simp [RegistryOk]

theorem registryOk_delete (env : Env) (reg : List (String × Nat)) (creates : Nat)
    (closed : List Nat) (key : String) (h : RegistryOk env reg creates closed) :
    RegistryOk env (mapDelete reg key) creates closed := by
  obtain ⟨h1, h2, h3, h4⟩ := h
  refine ⟨mapDelete_keys_nodup reg key h1, ?_, ?_, ?_⟩
  · intro e₁ he₁ e₂ he₂
    exact h2 e₁ ((mem_mapDelete _ _ _).mp he₁).1 e₂ ((mem_mapDelete _ _ _).mp he₂).1
  · intro e he
    exact h3 e ((mem_mapDelete _ _ _).mp he).1
  · intro t ht
    refine ⟨?_, (h4 t ht).2⟩
    intro e he
    exact (h4 t ht).1 e ((mem_mapDelete _ _ _).mp he).1

theorem registryOk_bump (env : Env) (reg : List (String × Nat)) (creates : Nat)
    (closed : List Nat) (h : RegistryOk env reg creates closed) :
    RegistryOk env reg (creates + 1) closed := by
  obtain ⟨h1, h2, h3, h4⟩ := h
  refine ⟨h1, h2, ?_, ?_⟩
  · intro e he
    obtain ⟨k, u, tab, hk, hans, hid⟩ := h3 e he
    exact ⟨k, u, tab, by omega, hans, hid⟩
  · intro t ht
    refine ⟨(h4 t ht).1, ?_⟩
    intro j u tab hj
    exact (h4 t ht).2 j u tab (by omega)

theorem registryOk_set (env : Env) (reg : List (String × Nat)) (creates : Nat)
    (closed : List Nat) (key url : String) (tab : Tab) (hfresh : FreshIds env)
    (h : RegistryOk env reg creates closed)
    (hans : env.tabsCreate creates url = .resolve tab) :
    RegistryOk env (mapSet reg key tab.id) (creates + 1) closed := by
  obtain ⟨h1, h2, h3, h4⟩ := h
  have hnew : ∀ e ∈ reg, e.2 ≠ tab.id := by
    intro e he heq
    obtain ⟨k, u, old, hk, hold, hid⟩ := h3 e he
    have := hfresh k creates u url old tab hold hans (by rw [hid, heq])
    omega
  refine ⟨mapSet_keys_nodup reg key tab.id h1, ?_, ?_, ?_⟩
  · intro e₁ he₁ e₂ he₂ heq
    rcases mem_mapSet _ _ _ _ he₁ with rfl | ⟨hm₁, _⟩ <;>
      rcases mem_mapSet _ _ _ _ he₂ with rfl | ⟨hm₂, _⟩
    · rfl
    · exact absurd heq.symm (hnew e₂ hm₂)
    · exact absurd heq (hnew e₁ hm₁)
    · exact h2 e₁ hm₁ e₂ hm₂ heq
  · intro e he
    rcases mem_mapSet _ _ _ _ he with rfl | ⟨hm, _⟩
    · exact ⟨creates, url, tab, by omega, hans, rfl⟩
    · obtain ⟨k, u, old, hk, hold, hid⟩ := h3 e hm
      exact ⟨k, u, old, by omega, hold, hid⟩
  · intro t ht
    refine ⟨?_, ?_⟩
    · intro e he
      rcases mem_mapSet _ _ _ _ he with rfl | ⟨hm, _⟩
      · exact (h4 t ht).2 creates url tab (Nat.le_refl _) hans
      · exact (h4 t ht).1 e hm
    · intro j u other hj
      exact (h4 t ht).2 j u other (by omega)

theorem registryOk_create (env : Env) (cfg : List (String × Provider))
    (providerId : String) (w : World) (closed : List Nat) (hfresh : FreshIds env)
    (h : RegistryOk env w.activeTabs w.creates closed) :
    RegistryOk env (createProviderTab env cfg providerId w).2.activeTabs
      (createProviderTab env cfg providerId w).2.creates closed := by
  unfold createProviderTab
  cases hcfg : lookupProvider cfg providerId with
  | none => exact h
  | some provider =>
    simp only
    cases hans : env.tabsCreate w.creates provider.url with
    | reject message => exact registryOk_bump env _ _ _ h
    | resolve tab => exact registryOk_set env _ _ _ providerId provider.url tab hfresh h hans

theorem registryOk_acquire (env : Env) (cfg : List (String × Provider))
    (providerId : String) (w : World) (closed : List Nat) (hfresh : FreshIds env)
    (h : RegistryOk env w.activeTabs w.creates closed) :
    RegistryOk env (getProviderTab env cfg providerId w).2.activeTabs
      (getProviderTab env cfg providerId w).2.creates closed := by
  unfold getProviderTab
  cases hreg : mapGet w.activeTabs providerId with
  | none => exact registryOk_create env cfg providerId w closed hfresh h
  | some tabId =>
    simp only
    cases hans : env.tabsGet w.gets tabId with
    | reject message =>
      exact registryOk_create env cfg providerId _ closed hfresh
        (registryOk_delete env _ _ _ providerId h)
    | resolve found =>
      cases found with
      | none => exact registryOk_create env cfg providerId _ closed hfresh h
      | some answer => exact h

theorem registryOk_close (env : Env) (reg : List (String × Nat)) (creates : Nat)
    (closed : List Nat) (tabId : Nat) (h : RegistryOk env reg creates closed)
    (hlater : ∀ j u tab, creates ≤ j → env.tabsCreate j u = .resolve tab → tab.id ≠ tabId) :
    RegistryOk env (onRemoved tabId reg) creates (tabId :: closed) := by
  have hsub : ∀ e ∈ onRemoved tabId reg, e ∈ reg := by
    intro e he
    unfold onRemoved at he
    cases hfind : reg.find? (fun e => e.2 == tabId) with
    | none => simpa [hfind] using he
    | some found =>
      simp only [hfind] at he
      exact ((mem_mapDelete _ _ _).mp he).1
  have hok : RegistryOk env (onRemoved tabId reg) creates closed := by
    unfold onRemoved
    cases hfind : reg.find? (fun e => e.2 == tabId) with
    | none => exact h
    | some found => exact registryOk_delete env _ _ _ _ h
  obtain ⟨h1, h2, h3, h4⟩ := hok
  refine ⟨h1, h2, h3, ?_⟩
  intro t ht
  rcases List.mem_cons.mp ht with rfl | ht
  · refine ⟨?_, hlater⟩
    intro e he heq
    unfold onRemoved at he
    cases hfind : reg.find? (fun e => e.2 == t) with
    | none =>
      rw [List.find?_eq_none] at hfind
      exact hfind e (hsub e (by unfold onRemoved; simpa [hfind] using he)) (by simpa using heq)
    | some found =>
      simp only [hfind] at he
      have hfound : found.2 = t := by simpa using List.find?_some hfind
      have hmem : found ∈ reg := List.mem_of_find?_eq_some hfind
      have he' := (mem_mapDelete _ _ _).mp he
      exact he'.2 (h.2.1 e he'.1 found hmem (heq.trans hfound.symm))
  · exact h4 t ht

theorem registryOk_events (env : Env) (cfg : List (String × Provider))
    (hfresh : FreshIds env) (events : List RegistryEvent) (w : World) (closed : List Nat)
    (h : RegistryOk env w.activeTabs w.creates closed)
    (hvalid : ClosedNotReissued env cfg w events) :
    RegistryOk env (applyEvents env cfg w events).activeTabs
      (applyEvents env cfg w events).creates (closedIds events ++ closed) := by
  induction events generalizing w closed with
  | nil => simpa [applyEvents, closedIds] using h
  | cons event rest ih =>
    cases event with
    | acquire providerId =>
      have hstep := registryOk_acquire env cfg providerId w closed hfresh h
      have := ih (applyEvent env cfg w (.acquire providerId)) closed hstep hvalid
      simpa [applyEvents, closedIds] using this
    | close tabId =>
      obtain ⟨hlater, hrest⟩ := hvalid
      have hstep := registryOk_close env w.activeTabs w.creates closed tabId h hlater
      have := ih (applyEvent env cfg w (.close tabId)) (tabId :: closed) hstep hrest
      refine ⟨this.1, this.2.1, this.2.2.1, ?_⟩
      intro t ht
      apply this.2.2.2 t
      simp only [closedIds, List.mem_append, List.mem_cons] at ht ⊢
      tauto

theorem registryOk_onRemoved (env : Env) (reg : List (String × Nat)) (creates : Nat)
    (closed : List Nat) (tabId : Nat) (h : RegistryOk env reg creates closed) :
    RegistryOk env (onRemoved tabId reg) creates closed := by
  unfold onRemoved
  cases hfind : reg.find? (fun e => e.2 == tabId) with
  | none => exact h
  | some found => exact registryOk_delete env _ _ _ _ h

/-- With fresh session ids alone, every registry reached from a sound one is sound: one entry
per provider and one provider per session. -/
theorem registryOk_reachable (env : Env) (cfg : List (String × Provider))
    (hfresh : FreshIds env) (events : List RegistryEvent) (w : World)
    (h : RegistryOk env w.activeTabs w.creates []) :
    RegistryOk env (applyEvents env cfg w events).activeTabs
      (applyEvents env cfg w events).creates [] := by
  induction events generalizing w with
  | nil => simpa [applyEvents] using h
  | cons event rest ih =>
    cases event with
    | acquire providerId =>
      have hstep := registryOk_acquire env cfg providerId w [] hfresh h
      have := ih (applyEvent env cfg w (.acquire providerId)) hstep
      simpa [applyEvents] using this
    | close tabId =>
      have hstep := registryOk_onRemoved env w.activeTabs w.creates [] tabId h
      have := ih (applyEvent env cfg w (.close tabId)) hstep
      simpa [applyEvents] using this

/-! ## Facts about `getProviderTab` -/

theorem createProviderTab_returned (env : Env) (cfg : List (String × Provider))
    (providerId : String) (w : World) (tab : Tab)
    (h : (createProviderTab env cfg providerId w).1 = .returned tab) :
    mapGet (createProviderTab env cfg providerId w).2.activeTabs providerId = some tab.id := by
  unfold createProviderTab at h ⊢
  cases hcfg : lookupProvider cfg providerId with
  | none => simp [hcfg] at h
  | some provider =>
    simp only [hcfg] at h ⊢
    cases hans : env.tabsCreate w.creates provider.url with
    | reject message => simp [hans] at h
    | resolve created =>
      simp only [hans, Outcome.returned.injEq] at h ⊢
      subst h
      exact mapGet_mapSet_self _ _ _

theorem getProviderTab_returned (env : Env) (cfg : List (String × Provider))
    (providerId : String) (w : World) (tab : Tab)
    (hfaithful : ∀ k t answer, env.tabsGet k t = .resolve (some answer) → answer.id = t)
    (h : (getProviderTab env cfg providerId w).1 = .returned tab) :
    mapGet (getProviderTab env cfg providerId w).2.activeTabs providerId = some tab.id := by
  unfold getProviderTab at h ⊢
  cases hreg : mapGet w.activeTabs providerId with
  | none =>
    simp only [hreg] at h ⊢
    exact createProviderTab_returned env cfg providerId w tab h
  | some tabId =>
    simp only [hreg] at h ⊢
    cases hans : env.tabsGet w.gets tabId with
    | reject message =>
      simp only [hans] at h ⊢
      exact createProviderTab_returned env cfg providerId _ tab h
    | resolve found =>
      cases found with
      | none =>
        simp only [hans] at h ⊢
        exact createProviderTab_returned env cfg providerId _ tab h
      | some answer =>
        simp only [hans, Outcome.returned.injEq] at h ⊢
        subst h
        rw [hreg, hfaithful _ _ _ hans]

/-! ## Facts about `checkStatus` -/

theorem afterPolls_zero (tabId : Nat) (w : World) : afterPolls tabId 0 w = w := by
  simp [afterPolls, pollLog]

theorem afterPolls_succ (tabId : Nat) (n : Nat) (w : World) :
    afterPolls tabId n
        { w with gets := w.gets + 1, nows := w.nows + 1,
                 log := w.log ++ [.tabsGet tabId] ++ [.setTimeout 100] }
      = afterPolls tabId (n + 1) w := by
  simp only [afterPolls, pollLog, World.mk.injEq, true_and]
  refine ⟨by omega, by omega, by simp⟩

/-- A wait that is still pending after `n` polls has made exactly those `n` polls. -/
theorem checkStatus_pending_world (env : Env) (tabId : Nat) (timeout start : Int) (n : Nat)
    (w : World) (h : (checkStatus env tabId timeout start n w).1 = .pending) :
    (checkStatus env tabId timeout start n w).2 = afterPolls tabId n w := by
  induction n generalizing w with
  | zero => simp [checkStatus, afterPolls_zero]
  | succ n ih =>
    rw [checkStatus] at h ⊢
    cases hans : env.tabsGet w.gets tabId with
    | reject message => simp [hans] at h
    | resolve found =>
      cases found with
      | none => simp [hans] at h
      | some tab =>
        simp only [hans] at h ⊢
        by_cases hdone : tab.status = "complete"
        · simp [hdone] at h
        · simp only [hdone, if_false] at h ⊢
          by_cases hlate : env.dateNow w.nows - start > timeout
          · simp [hlate] at h
          · simp only [hlate, if_false] at h ⊢
            rw [ih _ h]
            exact afterPolls_succ tabId n w

/-- A wait that is still pending after `n` polls goes on from the world those polls left. -/
theorem checkStatus_add (env : Env) (tabId : Nat) (timeout start : Int) (n m : Nat)
    (w : World) (h : (checkStatus env tabId timeout start n w).1 = .pending) :
    checkStatus env tabId timeout start (n + m) w
      = checkStatus env tabId timeout start m (afterPolls tabId n w) := by
  induction n generalizing w with
  | zero => simp [afterPolls_zero]
  | succ n ih =>
    rw [show n + 1 + m = (n + m) + 1 by omega, checkStatus]
    rw [checkStatus] at h
    cases hans : env.tabsGet w.gets tabId with
    | reject message => simp [hans] at h
    | resolve found =>
      cases found with
      | none => simp [hans] at h
      | some tab =>
        simp only [hans] at h ⊢
        by_cases hdone : tab.status = "complete"
        · simp [hdone] at h
        · simp only [hdone, if_false] at h ⊢
          by_cases hlate : env.dateNow w.nows - start > timeout
          · simp [hlate] at h
          · simp only [hlate, if_false] at h ⊢
            rw [ih _ h]
            exact congrArg _ (afterPolls_succ tabId n w)

/-- While every poll finds the tab loading and within the time allowed, the wait is pending. -/
theorem checkStatus_pending_of_loading (env : Env) (tabId : Nat) (timeout start : Int)
    (n : Nat) (w : World)
    (hload : ∀ k, k < n → ∃ tab, env.tabsGet (w.gets + k) tabId = .resolve (some tab) ∧
      tab.status ≠ "complete")
    (htime : ∀ k, k < n → env.dateNow (w.nows + k) - start ≤ timeout) :
    (checkStatus env tabId timeout start n w).1 = .pending := by
  induction n generalizing w with
  | zero => simp [checkStatus]
  | succ n ih =>
    rw [checkStatus]
    obtain ⟨tab, hans, hdone⟩ := hload 0 (by omega)
    have hlate : ¬ env.dateNow w.nows - start > timeout := by
      have := htime 0 (by omega)
      simpa using this
    simp only [Nat.add_zero] at hans
    simp only [hans, hdone, if_false, hlate]
    apply ih
    · intro k hk
      have := hload (k + 1) (by omega)
      simpa [Nat.add_assoc, Nat.add_comm 1 k] using this
    · intro k hk
      have := htime (k + 1) (by omega)
      simpa [Nat.add_assoc, Nat.add_comm 1 k] using this

/-- A wait whose every poll finds the tab not complete never resolves. -/
theorem checkStatus_not_returned (env : Env) (tabId : Nat) (timeout start : Int)
    (fuel : Nat) (w : World) (tab : Tab)
    (hload : ∀ k, ∃ found, env.tabsGet (w.gets + k) tabId = .resolve (some found) ∧
      found.status ≠ "complete") :
    (checkStatus env tabId timeout start fuel w).1 ≠ .returned tab := by
  induction fuel generalizing w with
  | zero => simp [checkStatus]
  | succ n ih =>
    rw [checkStatus]
    obtain ⟨found, hans, hdone⟩ := hload 0
    simp only [Nat.add_zero] at hans
    simp only [hans, hdone, if_false]
    by_cases hlate : env.dateNow w.nows - start > timeout
    · simp [hlate]
    · simp only [hlate, if_false]
      apply ih
      intro k
      have := hload (k + 1)
      simpa [Nat.add_assoc, Nat.add_comm 1 k] using this

/-- With a clock that advances from one reading to the next, a poll budget above the timeout
is never used up. -/
theorem checkStatus_settles (env : Env) (tabId : Nat) (timeout start : Int)
    (hclock : ∀ k, env.dateNow k < env.dateNow (k + 1)) (fuel : Nat) (w : World)
    (hfuel : (timeout - (env.dateNow w.nows - start) + 1).toNat < fuel) :
    (checkStatus env tabId timeout start fuel w).1 ≠ .pending := by
  induction fuel generalizing w with
  | zero => omega
  | succ n ih =>
    rw [checkStatus]
    cases hans : env.tabsGet w.gets tabId with
    | reject message => simp
    | resolve found =>
      cases found with
      | none => simp
      | some tab =>
        simp only
        by_cases hdone : tab.status = "complete"
        · simp [hdone]
        · simp only [hdone, if_false]
          by_cases hlate : env.dateNow w.nows - start > timeout
          · simp [hlate]
          · simp only [hlate, if_false]
            apply ih
            have := hclock w.nows
            simp only
            omega

theorem waitForTabLoad_settles (env : Env) (tabId : Nat) (timeout : Int)
    (hclock : ∀ k, env.dateNow k < env.dateNow (k + 1)) (fuel : Nat) (w : World)
    (hfuel : timeout.toNat < fuel) :
    (waitForTabLoad env fuel tabId timeout w).1 ≠ .pending := by
  unfold waitForTabLoad
  apply checkStatus_settles env tabId timeout _ hclock
  have := hclock w.nows
  simp only
  omega

/-- A wait resolves only with a tab whose status is `complete`. -/
theorem checkStatus_returned_complete (env : Env) (tabId : Nat) (timeout start : Int)
    (fuel : Nat) (w : World) (tab : Tab)
    (h : (checkStatus env tabId timeout start fuel w).1 = .returned tab) :
    tab.status = "complete" := by
  induction fuel generalizing w with
  | zero => simp [checkStatus] at h
  | succ n ih =>
    rw [checkStatus] at h
    cases hans : env.tabsGet w.gets tabId with
    | reject message => simp [hans] at h
    | resolve found =>
      cases found with
      | none => simp [hans] at h
      | some answer =>
        simp only [hans] at h
        by_cases hdone : answer.status = "complete"
        · simp only [hdone, if_true, Outcome.returned.injEq] at h
          rw [← h]
          exact hdone
        · simp only [hdone, if_false] at h
          by_cases hlate : env.dateNow w.nows - start > timeout
          · simp [hlate] at h
          · simp only [hlate, if_false] at h
            exact ih _ h

/-- The wait makes no `chrome.tabs.sendMessage` call. -/
theorem checkStatus_sends (env : Env) (tabId : Nat) (timeout start : Int)
    (fuel : Nat) (w : World) :
    (checkStatus env tabId timeout start fuel w).2.sends = w.sends := by
  induction fuel generalizing w with
  | zero => simp [checkStatus]
  | succ n ih =>
    rw [checkStatus]
    cases hans : env.tabsGet w.gets tabId with
    | reject message => simp
    | resolve found =>
      cases found with
      | none => simp
      | some answer =>
        simp only
        by_cases hdone : answer.status = "complete"
        · simp [hdone]
        · simp only [hdone, if_false]
          by_cases hlate : env.dateNow w.nows - start > timeout
          · simp [hlate]
          · simp only [hlate, if_false]
            rw [ih]

theorem createProviderTab_sends (env : Env) (cfg : List (String × Provider))
    (providerId : String) (w : World) :
    (createProviderTab env cfg providerId w).2.sends = w.sends := by
  unfold createProviderTab
  cases lookupProvider cfg providerId with
  | none => rfl
  | some provider =>
    simp only
    cases hans : env.tabsCreate w.creates provider.url <;> rfl

/-- Acquisition makes no `chrome.tabs.sendMessage` call. -/
theorem getProviderTab_sends (env : Env) (cfg : List (String × Provider))
    (providerId : String) (w : World) :
    (getProviderTab env cfg providerId w).2.sends = w.sends := by
  unfold getProviderTab
  cases mapGet w.activeTabs providerId with
  | none => exact createProviderTab_sends env cfg providerId w
  | some tabId =>
    simp only
    cases hans : env.tabsGet w.gets tabId with
    | reject message => simp [createProviderTab_sends]
    | resolve found =>
      cases found with
      | none => simp [createProviderTab_sends]
      | some answer => simp

theorem createProviderTab_not_pending (env : Env) (cfg : List (String × Provider))
    (providerId : String) (w : World) :
    (createProviderTab env cfg providerId w).1 ≠ .pending := by
  unfold createProviderTab
  cases lookupProvider cfg providerId with
  | none => simp
  | some provider =>
    simp only
    cases hans : env.tabsCreate w.creates provider.url <;> simp

/-- Acquisition needs no polling budget: it returns or throws. -/
theorem getProviderTab_not_pending (env : Env) (cfg : List (String × Provider))
    (providerId : String) (w : World) :
    (getProviderTab env cfg providerId w).1 ≠ .pending := by
  unfold getProviderTab
  cases mapGet w.activeTabs providerId with
  | none => exact createProviderTab_not_pending env cfg providerId w
  | some tabId =>
    simp only
    cases hans : env.tabsGet w.gets tabId with
    | reject message => simp [createProviderTab_not_pending]
    | resolve found =>
      cases found with
      | none => simp [createProviderTab_not_pending]
      | some answer => simp

theorem waitForTabLoad_sends (env : Env) (fuel : Nat) (tabId : Nat) (timeout : Int)
    (w : World) : (waitForTabLoad env fuel tabId timeout w).2.sends = w.sends := by
  unfold waitForTabLoad
  rw [checkStatus_sends]

theorem waitForTabLoad_returned_complete (env : Env) (fuel : Nat) (tabId : Nat)
    (timeout : Int) (w : World) (tab : Tab)
    (h : (waitForTabLoad env fuel tabId timeout w).1 = .returned tab) :
    tab.status = "complete" :=
  checkStatus_returned_complete env tabId timeout _ fuel _ tab h

/-! ## Facts about `sendToProvider` -/

theorem sendToProviderBody_not_pending (env : Env) (cfg : List (String × Provider))
    (fuel : Nat) (providerId : String) (context : Option Context) (w : World)
    (hclock : ∀ k, env.dateNow k < env.dateNow (k + 1)) (hfuel : 10000 < fuel) :
    (sendToProviderBody env cfg fuel providerId context w).1 ≠ .pending := by
  unfold sendToProviderBody
  have hacq := getProviderTab_not_pending env cfg providerId w
  rcases hg : getProviderTab env cfg providerId w with ⟨o1, w1⟩
  rw [hg] at hacq
  cases o1 with
  | pending => exact absurd rfl hacq
  | threw e => simp
  | returned tab =>
    simp only
    have hwait := waitForTabLoad_settles env tab.id 10000 hclock fuel w1 (by simpa using hfuel)
    rcases hw : waitForTabLoad env fuel tab.id 10000 w1 with ⟨o2, w2⟩
    rw [hw] at hwait
    cases o2 with
    | pending => exact absurd rfl hwait
    | threw e => simp
    | returned ready =>
      cases context with
      | none => simp
      | some c =>
        simp only
        cases env.tabsSendMessage w2.sends tab.id ⟨"sendPrompt", c.prompt, c⟩ <;> simp

/-- The record `sendToProvider` returns once its `try` block has ended. -/
theorem sendToProvider_returns (env : Env) (cfg : List (String × Provider))
    (fuel : Nat) (providerId : String) (context : Option Context) (w : World)
    (hclock : ∀ k, env.dateNow k < env.dateNow (k + 1)) (hfuel : 10000 < fuel) :
    ∃ result, (sendToProvider env cfg fuel providerId context w).1 = .returned result ∧
      result.provider = providerId ∧
      ((result.status = "sent" ∧ result.error = none ∧
          (sendToProviderBody env cfg fuel providerId context w).1 = .returned ()) ∨
        (result.status = "error" ∧ ∃ failure, result.error = some failure ∧
          (sendToProviderBody env cfg fuel providerId context w).1 = .threw failure)) := by
  have hbody := sendToProviderBody_not_pending env cfg fuel providerId context w hclock hfuel
  unfold sendToProvider
  rcases hb : sendToProviderBody env cfg fuel providerId context w with ⟨o, w1⟩
  rw [hb] at hbody
  cases o with
  | pending => exact absurd rfl hbody
  | threw e => exact ⟨⟨providerId, "error", some e⟩, rfl, rfl, Or.inr ⟨rfl, e, rfl, rfl⟩⟩
  | returned u => exact ⟨⟨providerId, "sent", none⟩, rfl, rfl, Or.inl ⟨rfl, rfl, rfl⟩⟩

theorem sendToProvider_not_threw (env : Env) (cfg : List (String × Provider))
    (fuel : Nat) (providerId : String) (context : Option Context) (w : World)
    (failure : JsError) :
    (sendToProvider env cfg fuel providerId context w).1 ≠ .threw failure := by
  unfold sendToProvider
  rcases hb : sendToProviderBody env cfg fuel providerId context w with ⟨o, w1⟩
  cases o <;> simp

/-! ## Facts about the `sendToAll` loop -/

/-- The loop appends one record per enabled entry, tagged with the entry's key, in order. -/
theorem sendToAllLoop_returns (env : Env) (cfg : List (String × Provider)) (fuel : Nat)
    (context : Option Context)
    (hclock : ∀ k, env.dateNow k < env.dateNow (k + 1)) (hfuel : 10000 < fuel)
    (entries : List (String × Provider)) (acc : List DeliveryResult) (w : World) :
    ∃ added, (sendToAllLoop env cfg fuel context entries acc w).1 = .returned (acc ++ added) ∧
      added.map (fun r => r.provider)
        = (entries.filter (fun e => e.2.enabled)).map (fun e => e.1) ∧
      ∀ r ∈ added, r.status = "sent" ∨ r.status = "error" := by
  induction entries generalizing acc w with
  | nil => exact ⟨[], by simp [sendToAllLoop], rfl, by simp⟩
  | cons entry rest ih =>
    obtain ⟨key, provider⟩ := entry
    rw [sendToAllLoop]
    by_cases hen : provider.enabled = true
    · obtain ⟨result, hres, htag, hstatus⟩ :=
        sendToProvider_returns env cfg fuel key context w hclock hfuel
      rcases hsp : sendToProvider env cfg fuel key context w with ⟨o, w1⟩
      rw [hsp] at hres
      simp only at hres
      subst hres
      obtain ⟨added, hloop, htags, hall⟩ := ih (acc ++ [result]) w1
      refine ⟨result :: added, ?_, ?_, ?_⟩
      · simp only [hen, if_true]
        rw [hloop]
        simp
      · simp [hen, htag, htags]
      · intro r hr
        rcases List.mem_cons.mp hr with rfl | hr
        · rcases hstatus with h | h
          · exact Or.inl h.1
          · exact Or.inr h.1
        · exact hall r hr
    · obtain ⟨added, hloop, htags, hall⟩ := ih acc w
      refine ⟨added, ?_, ?_, hall⟩
      · simp only [hen, Bool.false_eq_true, if_false]
        exact hloop
      · simp [hen, htags]

/-! ## The turns of `getProviderTab` -/

/-- Run without anything in between, the turns of `getProviderTab` (at most three) end as the
function does. -/
theorem getProviderTab_eq_turns (env : Env) (cfg : List (String × Provider))
    (providerId : String) (w : World) :
    getProviderTabResume env cfg providerId
        (getProviderTabResume env cfg providerId
          (getProviderTabStart env cfg providerId w).1
          (getProviderTabStart env cfg providerId w).2).1
        (getProviderTabResume env cfg providerId
          (getProviderTabStart env cfg providerId w).1
          (getProviderTabStart env cfg providerId w).2).2
      = (.finished (getProviderTab env cfg providerId w).1,
          (getProviderTab env cfg providerId w).2) := by
  have hcreate : ∀ w0 : World,
      getProviderTabResume env cfg providerId (issueCreate env cfg providerId w0).1
          (issueCreate env cfg providerId w0).2
        = (.finished (createProviderTab env cfg providerId w0).1,
            (createProviderTab env cfg providerId w0).2) := by
    intro w0
    unfold issueCreate createProviderTab
    cases hcfg : lookupProvider cfg providerId with
    | none => simp [getProviderTabResume]
    | some provider =>
      simp only
      cases hans : env.tabsCreate w0.creates provider.url <;> simp [getProviderTabResume]
  have hdone : ∀ (o : Outcome Tab) (w0 : World),
      getProviderTabResume env cfg providerId (.finished o) w0 = (.finished o, w0) := by
    intro o w0
    simp [getProviderTabResume]
  unfold getProviderTabStart getProviderTab
  cases hreg : mapGet w.activeTabs providerId with
  | none =>
    simp only
    rw [hcreate, hdone]
  | some tabId =>
    simp only
    cases hans : env.tabsGet w.gets tabId with
    | reject message =>
      simp only [getProviderTabResume]
      exact hcreate _
    | resolve found =>
      cases found with
      | none =>
        simp only [getProviderTabResume]
        exact hcreate _
      | some answer => simp [getProviderTabResume]

/-! ## The lifecycle listener -/

/-- On a registry in which at most one provider is bound to session `s`, a second
`tabs.onRemoved` notification for `s` changes nothing, and a notification for an id bound to
no provider leaves the registry as it is. -/
theorem onRemoved_idempotent (m : List (String × Nat)) (s : Nat)
    (hone : ∀ e₁ ∈ m, ∀ e₂ ∈ m, e₁.2 = s → e₂.2 = s → e₁.1 = e₂.1) :
    onRemoved s (onRemoved s m) = onRemoved s m ∧
      ((∀ e ∈ m, e.2 ≠ s) → onRemoved s m = m) := by
  constructor
  · unfold onRemoved
    cases hfind : m.find? (fun e => e.2 == s) with
    | none => simp [hfind]
    | some e =>
      obtain ⟨p, v⟩ := e
      have hv : v = s := by simpa using List.find?_some hfind
      have hmem : (p, v) ∈ m := List.mem_of_find?_eq_some hfind
      have hnone : (mapDelete m p).find? (fun e => e.2 == s) = none := by
        rw [List.find?_eq_none]
        intro e he
        simp only [mapDelete, List.mem_filter, bne_iff_ne, ne_eq] at he
        intro hes
        exact he.2 (hone e he.1 (p, v) hmem (by simpa using hes) hv)
      simp [hnone]
  · intro hfree
    unfold onRemoved
    have hnone : m.find? (fun e => e.2 == s) = none := by
      rw [List.find?_eq_none]
      intro e he
      simpa using hfree e he
    simp [hnone]

/-- C6: for every registry state the service worker reaches (from the empty registry, by
`getProviderTab` calls and `tabs.onRemoved` notifications, with `chrome.tabs.create` issuing
every session id once) and every session id `s`, applying the `tabs.onRemoved` handler for `s`
twice yields the same registry as applying it once, and applying it for an id bound to no
provider leaves the registry unchanged. The handler is a total function on the registry, so no
application raises an error. -/
theorem onRemoved_twice_eq_once (env : Env) (cfg : List (String × Provider))
    (events : List RegistryEvent) (hfresh : FreshIds env) :
    ∀ s,
      onRemoved s (onRemoved s (applyEvents env cfg World.initial events).activeTabs)
          = onRemoved s (applyEvents env cfg World.initial events).activeTabs ∧
        ((∀ e ∈ (applyEvents env cfg World.initial events).activeTabs, e.2 ≠ s) →
          onRemoved s (applyEvents env cfg World.initial events).activeTabs
            = (applyEvents env cfg World.initial events).activeTabs) := by
  intro s
  have hok := registryOk_reachable env cfg hfresh events World.initial (registryOk_nil env _)
  apply onRemoved_idempotent
  intro e₁ he₁ e₂ he₂ h₁ h₂
  exact hok.2.1 e₁ he₁ e₂ he₂ (h₁.trans h₂.symm)

/-- The handler on the registry left by acquiring `chatgpt` (session 100) and `claude`
(session 101): a second notification for the bound session 100 changes nothing after the first
one evicted `chatgpt`, and a notification for the unbound session 7 changes nothing at all. -/
theorem onRemoved_twice_eq_once_witness :
    onRemoved 100 (applyEvents readyBrowser AI_PROVIDERS World.initial
          [.acquire "chatgpt", .acquire "claude"]).activeTabs = [("claude", 101)] ∧
      onRemoved 100 (onRemoved 100 (applyEvents readyBrowser AI_PROVIDERS World.initial
          [.acquire "chatgpt", .acquire "claude"]).activeTabs)
        = onRemoved 100 (applyEvents readyBrowser AI_PROVIDERS World.initial
          [.acquire "chatgpt", .acquire "claude"]).activeTabs ∧
      onRemoved 7 (applyEvents readyBrowser AI_PROVIDERS World.initial
          [.acquire "chatgpt", .acquire "claude"]).activeTabs
        = (applyEvents readyBrowser AI_PROVIDERS World.initial
          [.acquire "chatgpt", .acquire "claude"]).activeTabs :=
  have h := onRemoved_twice_eq_once readyBrowser AI_PROVIDERS
    [.acquire "chatgpt", .acquire "claude"]
    (by
      intro i j u v a b ha hb hid
      simp only [readyBrowser, Answer.resolve.injEq] at ha hb
      subst ha
      subst hb
      simp only at hid
      omega)
  ⟨by decide, (h 100).1, (h 7).2 (by decide)⟩

/-! ## Acquisition -/

/-- C4: when `getProviderTab(providerId)` has just returned a session and `chrome.tabs.get`
still resolves for it, an immediate second call returns the same session id, calls only
`chrome.tabs.get` (no `chrome.tabs.create`) and leaves the registry unchanged. The browser
contract used: `chrome.tabs.get(t)` resolves with the tab whose id is `t`. -/
theorem getProviderTab_twice_same_session (env : Env) (cfg : List (String × Provider))
    (providerId : String) (w : World) (first second : Tab)
    (hfaithful : ∀ k t answer, env.tabsGet k t = .resolve (some answer) → answer.id = t)
    (hfirst : (getProviderTab env cfg providerId w).1 = .returned first)
    (hlive : env.tabsGet (getProviderTab env cfg providerId w).2.gets first.id
      = .resolve (some second)) :
    (getProviderTab env cfg providerId (getProviderTab env cfg providerId w).2).1
        = .returned second ∧
      second.id = first.id ∧
      (getProviderTab env cfg providerId (getProviderTab env cfg providerId w).2).2.creates
        = (getProviderTab env cfg providerId w).2.creates ∧
      (getProviderTab env cfg providerId (getProviderTab env cfg providerId w).2).2.log
        = (getProviderTab env cfg providerId w).2.log ++ [.tabsGet first.id] ∧
      (getProviderTab env cfg providerId (getProviderTab env cfg providerId w).2).2.activeTabs
        = (getProviderTab env cfg providerId w).2.activeTabs := by
  have hreg := getProviderTab_returned env cfg providerId w first hfaithful hfirst
  generalize (getProviderTab env cfg providerId w).2 = w1 at hreg hlive ⊢
  have hid : second.id = first.id := hfaithful _ _ _ hlive
  simp [getProviderTab, hreg, hlive, hid]

/-- Two successive acquisitions of `chatgpt` in a browser whose tabs stay alive. -/
theorem getProviderTab_twice_same_session_witness :
    (getProviderTab readyBrowser AI_PROVIDERS "chatgpt"
        (getProviderTab readyBrowser AI_PROVIDERS "chatgpt" World.initial).2).1
        = .returned ⟨100, "complete"⟩ ∧
      (⟨100, "complete"⟩ : Tab).id = (⟨100, "loading"⟩ : Tab).id ∧
      (getProviderTab readyBrowser AI_PROVIDERS "chatgpt"
        (getProviderTab readyBrowser AI_PROVIDERS "chatgpt" World.initial).2).2.creates
        = (getProviderTab readyBrowser AI_PROVIDERS "chatgpt" World.initial).2.creates ∧
      (getProviderTab readyBrowser AI_PROVIDERS "chatgpt"
        (getProviderTab readyBrowser AI_PROVIDERS "chatgpt" World.initial).2).2.log
        = (getProviderTab readyBrowser AI_PROVIDERS "chatgpt" World.initial).2.log
          ++ [.tabsGet (⟨100, "loading"⟩ : Tab).id] ∧
      (getProviderTab readyBrowser AI_PROVIDERS "chatgpt"
        (getProviderTab readyBrowser AI_PROVIDERS "chatgpt" World.initial).2).2.activeTabs
        = (getProviderTab readyBrowser AI_PROVIDERS "chatgpt" World.initial).2.activeTabs :=
  getProviderTab_twice_same_session readyBrowser AI_PROVIDERS "chatgpt" World.initial
    ⟨100, "loading"⟩ ⟨100, "complete"⟩
    (by
      intro k t answer h
      simp only [readyBrowser, Answer.resolve.injEq, Option.some.injEq] at h
      subst h
      rfl)
    (by decide) (by decide)

/-- C5: when the registry entry of a configured provider names a session for which
`chrome.tabs.get` rejects, `getProviderTab` drops the entry and calls `chrome.tabs.create` once
with the provider's url. If the creation resolves, the created tab is returned and the registry
binds the provider to its id; if it rejects, that rejection is thrown and the provider has no
entry. The rejection of `chrome.tabs.get` is never the outcome. -/
theorem getProviderTab_replaces_stale (env : Env) (cfg : List (String × Provider))
    (providerId : String) (w : World) (provider : Provider) (stale : Nat) (lost : String)
    (hcfg : lookupProvider cfg providerId = some provider)
    (hreg : mapGet w.activeTabs providerId = some stale)
    (hstale : env.tabsGet w.gets stale = .reject lost) :
    (getProviderTab env cfg providerId w).2.log
        = w.log ++ [.tabsGet stale, .tabsCreate provider.url false] ∧
      (getProviderTab env cfg providerId w).2.creates = w.creates + 1 ∧
      (∀ tab, env.tabsCreate w.creates provider.url = .resolve tab →
        (getProviderTab env cfg providerId w).1 = .returned tab ∧
        (getProviderTab env cfg providerId w).2.activeTabs
          = mapDelete w.activeTabs providerId ++ [(providerId, tab.id)] ∧
        mapGet (getProviderTab env cfg providerId w).2.activeTabs providerId = some tab.id) ∧
      (∀ message, env.tabsCreate w.creates provider.url = .reject message →
        (getProviderTab env cfg providerId w).1 = .threw (.capability message) ∧
        (getProviderTab env cfg providerId w).2.activeTabs = mapDelete w.activeTabs providerId ∧
        mapGet (getProviderTab env cfg providerId w).2.activeTabs providerId = none) := by
  have hgone := mapGet_mapDelete_self w.activeTabs providerId
  refine ⟨?_, ?_, ?_, ?_⟩
  · cases hans : env.tabsCreate w.creates provider.url <;>
      simp [getProviderTab, createProviderTab, hreg, hstale, hcfg, hans]
  · cases hans : env.tabsCreate w.creates provider.url <;>
      simp [getProviderTab, createProviderTab, hreg, hstale, hcfg, hans]
  · intro tab hans
    have hset := mapSet_of_absent _ _ tab.id hgone
    simp [getProviderTab, createProviderTab, hreg, hstale, hcfg, hans, hset,
      mapGet_mapSet_self]
    rw [← hset]
    exact mapGet_mapSet_self _ _ _
  · intro message hans
    simp [getProviderTab, createProviderTab, hreg, hstale, hcfg, hans, hgone]

/-- The acquisition of `chatgpt` when the registry still names the closed session 7. -/
theorem getProviderTab_replaces_stale_witness :
    (getProviderTab staleBrowser AI_PROVIDERS "chatgpt" ⟨[("chatgpt", 7)], 0, 0, 0, 0, []⟩).1
        = .returned ⟨100, "loading"⟩ ∧
      (getProviderTab staleBrowser AI_PROVIDERS "chatgpt"
          ⟨[("chatgpt", 7)], 0, 0, 0, 0, []⟩).2.activeTabs
        = mapDelete [("chatgpt", 7)] "chatgpt" ++ [("chatgpt", 100)] ∧
      mapGet (getProviderTab staleBrowser AI_PROVIDERS "chatgpt"
          ⟨[("chatgpt", 7)], 0, 0, 0, 0, []⟩).2.activeTabs "chatgpt" = some 100 :=
  (getProviderTab_replaces_stale staleBrowser AI_PROVIDERS "chatgpt"
    ⟨[("chatgpt", 7)], 0, 0, 0, 0, []⟩ ⟨"ChatGPT", "https://chat.openai.com", "🤖", true⟩ 7
    "No tab with id" (by decide) (by decide) (by decide)).2.2.1 ⟨100, "loading"⟩ (by decide)

/-! ## The registry under acquisitions and close notifications -/

/-- C3: starting from the empty registry, after any finite sequence of `getProviderTab` calls
and `tabs.onRemoved` notifications in which `chrome.tabs.create` issues session ids that were
never issued before (no id is issued twice, and no id is issued after it was reported closed),
the registry holds at most one entry per provider id and no entry whose session id has been
reported closed. -/
theorem registry_invariant (env : Env) (cfg : List (String × Provider))
    (events : List RegistryEvent) (hfresh : FreshIds env)
    (hvalid : ClosedNotReissued env cfg World.initial events) :
    ((applyEvents env cfg World.initial events).activeTabs.map (fun e => e.1)).Nodup ∧
      ∀ t ∈ closedIds events,
        ∀ e ∈ (applyEvents env cfg World.initial events).activeTabs, e.2 ≠ t := by
  have h := registryOk_events env cfg hfresh events World.initial []
    (registryOk_nil env _) hvalid
  refine ⟨h.1, ?_⟩
  intro t ht
  exact (h.2.2.2 t (by simpa using ht)).1

/-- The invariant after `chatgpt` and `claude` are acquired, session 100 is closed and
`chatgpt` is acquired again. -/
theorem registry_invariant_witness :
    ((applyEvents readyBrowser AI_PROVIDERS World.initial
          [.acquire "chatgpt", .acquire "claude", .close 100, .acquire "chatgpt"]).activeTabs.map
        (fun e => e.1)).Nodup ∧
      ∀ t ∈ closedIds [.acquire "chatgpt", .acquire "claude", .close 100, .acquire "chatgpt"],
        ∀ e ∈ (applyEvents readyBrowser AI_PROVIDERS World.initial
          [.acquire "chatgpt", .acquire "claude", .close 100, .acquire "chatgpt"]).activeTabs,
          e.2 ≠ t :=
  registry_invariant readyBrowser AI_PROVIDERS
    [.acquire "chatgpt", .acquire "claude", .close 100, .acquire "chatgpt"]
    (by
      intro i j u v a b ha hb hid
      simp only [readyBrowser, Answer.resolve.injEq] at ha hb
      subst ha
      subst hb
      simp only at hid
      omega)
    (by
      have hw : applyEvent readyBrowser AI_PROVIDERS
          (applyEvent readyBrowser AI_PROVIDERS World.initial (.acquire "chatgpt"))
          (.acquire "claude")
          = ⟨[("chatgpt", 100), ("claude", 101)], 0, 2, 0, 0,
              [.tabsCreate "https://chat.openai.com" false,
                .tabsCreate "https://claude.ai" false]⟩ := by decide
      simp only [ClosedNotReissued, hw, and_true]
      intro j u tab hj hans
      simp only [readyBrowser, Answer.resolve.injEq] at hans
      subst hans
      simp only
      omega)

/-! ## Two acquisitions in flight -/

/-- C9, as stated, fails: with an empty registry, two `getProviderTab('chatgpt')` calls in
flight at the same time do not share one `chrome.tabs.create` call and one session. They make
two `chrome.tabs.create` calls, return the sessions 100 and 101, and leave the registry
remembering 101 only. -/
theorem racingAcquisitions_two_sessions :
    racingAcquisitions readyBrowser AI_PROVIDERS "chatgpt" true World.initial
        = ((.finished (.returned ⟨100, "loading"⟩), .finished (.returned ⟨101, "loading"⟩)),
            ⟨[("chatgpt", 101)], 0, 2, 0, 0,
              [.tabsCreate "https://chat.openai.com" false,
                .tabsCreate "https://chat.openai.com" false]⟩) ∧
      ¬ ((racingAcquisitions readyBrowser AI_PROVIDERS "chatgpt" true World.initial).2.creates
            = World.initial.creates + 1 ∧
          ∃ first second,
            (racingAcquisitions readyBrowser AI_PROVIDERS "chatgpt" true World.initial).1
              = (.finished (.returned first), .finished (.returned second)) ∧
            first.id = second.id) := by
  have hrun : racingAcquisitions readyBrowser AI_PROVIDERS "chatgpt" true World.initial
      = ((.finished (.returned ⟨100, "loading"⟩), .finished (.returned ⟨101, "loading"⟩)),
          ⟨[("chatgpt", 101)], 0, 2, 0, 0,
            [.tabsCreate "https://chat.openai.com" false,
              .tabsCreate "https://chat.openai.com" false]⟩) := by
    decide
  refine ⟨hrun, ?_⟩
  rw [hrun]
  rintro ⟨hcreates, -⟩
  exact absurd hcreates (by decide)

/-- C9, amended: acquisition is not serialized per provider id. For a configured provider with
no registry entry, when a second `getProviderTab(providerId)` call starts before the first
one's `chrome.tabs.create` has completed and both creations resolve, each call makes its own
`chrome.tabs.create` call with the provider's url (two in all), each call returns the tab its
own call created, and the registry ends up bound to the session of the call that was resumed
last. -/
theorem racingAcquisitions_not_serialized (env : Env) (cfg : List (String × Provider))
    (providerId : String) (firstResumesFirst : Bool) (w : World) (provider : Provider)
    (tabA tabB : Tab)
    (hcfg : lookupProvider cfg providerId = some provider)
    (habsent : mapGet w.activeTabs providerId = none)
    (hA : env.tabsCreate w.creates provider.url = .resolve tabA)
    (hB : env.tabsCreate (w.creates + 1) provider.url = .resolve tabB) :
    (racingAcquisitions env cfg providerId firstResumesFirst w).1
        = (.finished (.returned tabA), .finished (.returned tabB)) ∧
      (racingAcquisitions env cfg providerId firstResumesFirst w).2.creates = w.creates + 2 ∧
      (racingAcquisitions env cfg providerId firstResumesFirst w).2.log
        = w.log ++ [.tabsCreate provider.url false, .tabsCreate provider.url false] ∧
      mapGet (racingAcquisitions env cfg providerId firstResumesFirst w).2.activeTabs providerId
        = some (if firstResumesFirst then tabB.id else tabA.id) := by
  cases firstResumesFirst <;>
    simp [racingAcquisitions, getProviderTabStart, issueCreate, getProviderTabResume,
      habsent, hcfg, hA, hB, mapGet_mapSet_self]

/-- Two racing acquisitions of `chatgpt` in the browser of the running example. -/
theorem racingAcquisitions_not_serialized_witness :
    (racingAcquisitions readyBrowser AI_PROVIDERS "chatgpt" false World.initial).1
        = (.finished (.returned ⟨100, "loading"⟩), .finished (.returned ⟨101, "loading"⟩)) ∧
      (racingAcquisitions readyBrowser AI_PROVIDERS "chatgpt" false World.initial).2.creates
        = World.initial.creates + 2 ∧
      (racingAcquisitions readyBrowser AI_PROVIDERS "chatgpt" false World.initial).2.log
        = World.initial.log ++ [.tabsCreate "https://chat.openai.com" false,
            .tabsCreate "https://chat.openai.com" false] ∧
      mapGet (racingAcquisitions readyBrowser AI_PROVIDERS "chatgpt" false
          World.initial).2.activeTabs "chatgpt"
        = some (if false then (⟨101, "loading"⟩ : Tab).id else (⟨100, "loading"⟩ : Tab).id) :=
  racingAcquisitions_not_serialized readyBrowser AI_PROVIDERS "chatgpt" false World.initial
    ⟨"ChatGPT", "https://chat.openai.com", "🤖", true⟩ ⟨100, "loading"⟩ ⟨101, "loading"⟩
    (by decide) (by decide) (by decide) (by decide)

/-! ## The readiness wait -/

/-- C7: when every status query resolves with a tab that is not complete and the clock
readings at the successive polls never decrease, `waitForTabLoad(tabId, T)` is still pending
after every poll whose elapsed time is at most `T`, rejects with the `Tab load timeout` error
at the first poll whose elapsed time exceeds `T` (having made `n + 1` status queries when that
poll is poll `n`), and never resolves. -/
theorem waitForTabLoad_timeout_boundary (env : Env) (tabId : Nat) (T : Int) (w : World)
    (hloading : ∀ k, ∃ tab, env.tabsGet (w.gets + k) tabId = .resolve (some tab) ∧
      tab.status ≠ "complete")
    (hclock : ∀ i j, i ≤ j → env.dateNow (w.nows + i) ≤ env.dateNow (w.nows + j)) :
    (∀ k, elapsedAt env w k ≤ T → (waitForTabLoad env (k + 1) tabId T w).1 = .pending) ∧
      (∀ n, T < elapsedAt env w n → (∀ k, k < n → elapsedAt env w k ≤ T) →
        ∀ fuel, n < fuel →
          (waitForTabLoad env fuel tabId T w).1 = .threw .tabLoadTimeout ∧
          (waitForTabLoad env fuel tabId T w).2.gets = w.gets + (n + 1)) ∧
      (∀ fuel tab, (waitForTabLoad env fuel tabId T w).1 ≠ .returned tab) := by
  refine ⟨?_, ?_, ?_⟩
  · intro k hk
    unfold waitForTabLoad
    apply checkStatus_pending_of_loading
    · intro j _
      exact hloading j
    · intro j hj
      have h1 := hclock (1 + j) (1 + k) (by omega)
      simp only [elapsedAt] at hk
      simp only [Nat.add_assoc] at hk ⊢
      omega
  · intro n hn hbefore fuel hfuel
    obtain ⟨m, rfl⟩ : ∃ m, fuel = n + (m + 1) := ⟨fuel - n - 1, by omega⟩
    have hpend : (checkStatus env tabId T (env.dateNow w.nows) n
        { w with nows := w.nows + 1 }).1 = .pending := by
      apply checkStatus_pending_of_loading
      · intro j _
        exact hloading j
      · intro j hj
        have := hbefore j hj
        simpa [elapsedAt] using this
    obtain ⟨tab, hans, hdone⟩ := hloading n
    unfold waitForTabLoad
    rw [checkStatus_add _ _ _ _ _ _ _ hpend, checkStatus]
    simp only [elapsedAt] at hn
    simp [afterPolls, hans, hdone, hn]
    omega
  · intro fuel tab
    unfold waitForTabLoad
    apply checkStatus_not_returned
    intro k
    exact hloading k

/-- A wait with a 250 ms timeout on a tab that never loads, polled every 100 ms: the third
poll, 300 ms after the start, rejects. -/
theorem waitForTabLoad_timeout_boundary_witness :
    (waitForTabLoad loadingBrowser 2 7 250 World.initial).1 = .pending ∧
      (waitForTabLoad loadingBrowser 3 7 250 World.initial).1 = .threw .tabLoadTimeout ∧
      (waitForTabLoad loadingBrowser 3 7 250 World.initial).2.gets
        = World.initial.gets + (2 + 1) :=
  have h := waitForTabLoad_timeout_boundary loadingBrowser 7 250 World.initial
    (by
      intro k
      exact ⟨⟨7, "loading"⟩, rfl, by decide⟩)
    (by
      intro i j hij
      simp only [loadingBrowser]
      push_cast
      omega)
  ⟨h.1 1 (by decide), h.2.1 2 (by decide)
    (by
      intro k hk
      have hk' : k = 0 ∨ k = 1 := by omega
      rcases hk' with rfl | rfl <;> decide)
    3 (by decide)⟩

/-- C8: when the wait is still pending after `n` polls and the status query of the next poll
rejects, `waitForTabLoad` rejects at that poll with the query's rejection, which is not the
`Tab load timeout` error; the last call it made is that status query, so no further poll was
scheduled. Neither the timeout nor the clock enters. -/
theorem waitForTabLoad_query_failure (env : Env) (tabId : Nat) (T : Int) (w : World)
    (n : Nat) (lost : String)
    (hbefore : (waitForTabLoad env n tabId T w).1 = .pending)
    (hfail : env.tabsGet (w.gets + n) tabId = .reject lost)
    (fuel : Nat) (hfuel : n < fuel) :
    (waitForTabLoad env fuel tabId T w).1 = .threw (.capability lost) ∧
      JsError.capability lost ≠ JsError.tabLoadTimeout ∧
      (waitForTabLoad env fuel tabId T w).2.gets = w.gets + (n + 1) ∧
      (waitForTabLoad env fuel tabId T w).2.log
        = w.log ++ pollLog tabId n ++ [.tabsGet tabId] := by
  obtain ⟨m, rfl⟩ : ∃ m, fuel = n + (m + 1) := ⟨fuel - n - 1, by omega⟩
  unfold waitForTabLoad at hbefore ⊢
  rw [checkStatus_add _ _ _ _ _ _ _ hbefore, checkStatus]
  simp [afterPolls, hfail]
  omega

/-- A wait on a tab that is loading for two polls and gone at the third. -/
theorem waitForTabLoad_query_failure_witness :
    (waitForTabLoad lostBrowser 5 7 10000 World.initial).1
        = .threw (.capability "No tab with id") ∧
      JsError.capability "No tab with id" ≠ JsError.tabLoadTimeout ∧
      (waitForTabLoad lostBrowser 5 7 10000 World.initial).2.gets
        = World.initial.gets + (2 + 1) ∧
      (waitForTabLoad lostBrowser 5 7 10000 World.initial).2.log
        = World.initial.log ++ pollLog 7 2 ++ [.tabsGet 7] :=
  waitForTabLoad_query_failure lostBrowser 7 10000 World.initial 2 "No tab with id"
    (by decide) (by decide) 5 (by decide)

/-! ## Delivery to one provider -/

/-- C1: `sendToProvider(providerId, context)` never throws, whatever the provider id, the
context and the answers of `chrome.tabs.get`, `chrome.tabs.create` and
`chrome.tabs.sendMessage`. Once the polling has ended (the clock advances between readings and
the poll budget exceeds the 10000 ms timeout) it returns a record whose `provider` is the given
id and whose `status` is `sent`, or `error` together with the failure its `try` block threw. -/
theorem sendToProvider_never_throws (env : Env) (cfg : List (String × Provider))
    (fuel : Nat) (providerId : String) (context : Option Context) (w : World)
    (hclock : ∀ k, env.dateNow k < env.dateNow (k + 1)) (hfuel : 10000 < fuel) :
    (∀ failure, (sendToProvider env cfg fuel providerId context w).1 ≠ .threw failure) ∧
      ∃ result, (sendToProvider env cfg fuel providerId context w).1 = .returned result ∧
        result.provider = providerId ∧
        ((result.status = "sent" ∧ result.error = none ∧
            (sendToProviderBody env cfg fuel providerId context w).1 = .returned ()) ∨
          (result.status = "error" ∧ ∃ failure, result.error = some failure ∧
            (sendToProviderBody env cfg fuel providerId context w).1 = .threw failure)) :=
  ⟨sendToProvider_not_threw env cfg fuel providerId context w,
    sendToProvider_returns env cfg fuel providerId context w hclock hfuel⟩

/-- The delivery of a prompt to `chatgpt` in a browser where everything succeeds. -/
theorem sendToProvider_never_throws_witness :
    (∀ failure, (sendToProvider readyBrowser AI_PROVIDERS 10001 "chatgpt" (some helloContext)
        World.initial).1 ≠ .threw failure) ∧
      ∃ result, (sendToProvider readyBrowser AI_PROVIDERS 10001 "chatgpt" (some helloContext)
          World.initial).1 = .returned result ∧
        result.provider = "chatgpt" ∧
        ((result.status = "sent" ∧ result.error = none ∧
            (sendToProviderBody readyBrowser AI_PROVIDERS 10001 "chatgpt" (some helloContext)
              World.initial).1 = .returned ()) ∨
          (result.status = "error" ∧ ∃ failure, result.error = some failure ∧
            (sendToProviderBody readyBrowser AI_PROVIDERS 10001 "chatgpt" (some helloContext)
              World.initial).1 = .threw failure)) :=
  sendToProvider_never_throws readyBrowser AI_PROVIDERS 10001 "chatgpt" (some helloContext)
    World.initial
    (by
      intro k
      simp only [readyBrowser]
      push_cast
      omega)
    (by decide)

/-- C10: `sendToProvider` returns status `sent` exactly when `getProviderTab` returned a tab,
`waitForTabLoad` on that tab's id then resolved (with a tab whose status is `complete`) and
`chrome.tabs.sendMessage` to that id then resolved. A `chrome.tabs.sendMessage` call is made
only after the wait on the same id has resolved, and it is the last call made. When
`getProviderTab` throws, or the wait rejects, `sendToProvider` returns the `error` record in the
world that step left: no later step has run. -/
theorem sendToProvider_sent_iff (env : Env) (cfg : List (String × Provider))
    (fuel : Nat) (providerId : String) (context : Option Context) (w : World) :
    ((∃ result, (sendToProvider env cfg fuel providerId context w).1 = .returned result ∧
          result.status = "sent") ↔
        ∃ tab w1 ready w2 c,
          getProviderTab env cfg providerId w = (.returned tab, w1) ∧
          waitForTabLoad env fuel tab.id 10000 w1 = (.returned ready, w2) ∧
          ready.status = "complete" ∧
          context = some c ∧
          env.tabsSendMessage w2.sends tab.id ⟨"sendPrompt", c.prompt, c⟩ = .resolve ()) ∧
      ((sendToProvider env cfg fuel providerId context w).2.sends ≠ w.sends →
        ∃ tab w1 ready w2 c,
          getProviderTab env cfg providerId w = (.returned tab, w1) ∧
          waitForTabLoad env fuel tab.id 10000 w1 = (.returned ready, w2) ∧
          ready.status = "complete" ∧
          context = some c ∧
          (sendToProvider env cfg fuel providerId context w).2.log
            = w2.log ++ [.tabsSendMessage tab.id ⟨"sendPrompt", c.prompt, c⟩]) ∧
      (∀ failure w1, getProviderTab env cfg providerId w = (.threw failure, w1) →
        sendToProvider env cfg fuel providerId context w
          = (.returned ⟨providerId, "error", some failure⟩, w1)) ∧
      (∀ tab w1 failure w2, getProviderTab env cfg providerId w = (.returned tab, w1) →
        waitForTabLoad env fuel tab.id 10000 w1 = (.threw failure, w2) →
        sendToProvider env cfg fuel providerId context w
          = (.returned ⟨providerId, "error", some failure⟩, w2)) := by
  have hs1 := getProviderTab_sends env cfg providerId w
  rcases hg : getProviderTab env cfg providerId w with ⟨o1, w1⟩
  rw [hg] at hs1
  simp only at hs1
  cases o1 with
  | pending => simp [sendToProvider, sendToProviderBody, hg, hs1]
  | threw e => simp [sendToProvider, sendToProviderBody, hg, hs1]
  | returned tab =>
    have hs2 := waitForTabLoad_sends env fuel tab.id 10000 w1
    have hc := waitForTabLoad_returned_complete env fuel tab.id 10000 w1
    rcases hw : waitForTabLoad env fuel tab.id 10000 w1 with ⟨o2, w2⟩
    rw [hw] at hs2 hc
    simp only at hs2 hc
    have hsends : w2.sends = w.sends := hs2.trans hs1
    cases o2 with
    | pending =>
      have hval : sendToProvider env cfg fuel providerId context w = (.pending, w2) := by
        simp [sendToProvider, sendToProviderBody, hg, hw]
      rw [hval]
      refine ⟨⟨?_, ?_⟩, ?_, ?_, ?_⟩
      · rintro ⟨result, hres, -⟩
        simp at hres
      · rintro ⟨tab', w1', ready, w2', c, h1, h2, -⟩
        simp only [Prod.mk.injEq, Outcome.returned.injEq] at h1
        obtain ⟨rfl, rfl⟩ := h1
        rw [hw] at h2
        simp at h2
      · intro hne
        exact absurd hsends hne
      · intro failure w1' h1
        simp at h1
      · intro tab' w1' failure w2' h1 h2
        simp only [Prod.mk.injEq, Outcome.returned.injEq] at h1
        obtain ⟨rfl, rfl⟩ := h1
        rw [hw] at h2
        simp at h2
    | threw e =>
      have hval : sendToProvider env cfg fuel providerId context w
          = (.returned ⟨providerId, "error", some e⟩, w2) := by
        simp [sendToProvider, sendToProviderBody, hg, hw]
      rw [hval]
      refine ⟨⟨?_, ?_⟩, ?_, ?_, ?_⟩
      · rintro ⟨result, hres, hstatus⟩
        simp only [Outcome.returned.injEq] at hres
        rw [← hres] at hstatus
        simp at hstatus
      · rintro ⟨tab', w1', ready, w2', c, h1, h2, -⟩
        simp only [Prod.mk.injEq, Outcome.returned.injEq] at h1
        obtain ⟨rfl, rfl⟩ := h1
        rw [hw] at h2
        simp at h2
      · intro hne
        exact absurd hsends hne
      · intro failure w1' h1
        simp at h1
      · intro tab' w1' failure w2' h1 h2
        simp only [Prod.mk.injEq, Outcome.returned.injEq] at h1
        obtain ⟨rfl, rfl⟩ := h1
        rw [hw] at h2
        simp only [Prod.mk.injEq, Outcome.threw.injEq] at h2
        obtain ⟨rfl, rfl⟩ := h2
        rfl
    | returned ready =>
      have hready : ready.status = "complete" := hc ready rfl
      cases context with
      | none =>
        have hval : sendToProvider env cfg fuel providerId none w
            = (.returned ⟨providerId, "error", some (.typeError "prompt")⟩, w2) := by
          simp [sendToProvider, sendToProviderBody, hg, hw]
        rw [hval]
        refine ⟨⟨?_, ?_⟩, ?_, ?_, ?_⟩
        · rintro ⟨result, hres, hstatus⟩
          simp only [Outcome.returned.injEq] at hres
          rw [← hres] at hstatus
          simp at hstatus
        · rintro ⟨tab', w1', ready', w2', c, -, -, -, h4, -⟩
          simp at h4
        · intro hne
          exact absurd hsends hne
        · intro failure w1' h1
          simp at h1
        · intro tab' w1' failure w2' h1 h2
          simp only [Prod.mk.injEq, Outcome.returned.injEq] at h1
          obtain ⟨rfl, rfl⟩ := h1
          rw [hw] at h2
          simp at h2
      | some c =>
        cases hsend : env.tabsSendMessage w2.sends tab.id ⟨"sendPrompt", c.prompt, c⟩ with
        | reject m =>
          have hval : sendToProvider env cfg fuel providerId (some c) w
              = (.returned ⟨providerId, "error", some (.capability m)⟩,
                  { w2 with sends := w2.sends + 1,
                            log := w2.log
                              ++ [.tabsSendMessage tab.id ⟨"sendPrompt", c.prompt, c⟩] }) := by
            simp [sendToProvider, sendToProviderBody, hg, hw, hsend]
          rw [hval]
          refine ⟨⟨?_, ?_⟩, ?_, ?_, ?_⟩
          · rintro ⟨result, hres, hstatus⟩
            simp only [Outcome.returned.injEq] at hres
            rw [← hres] at hstatus
            simp at hstatus
          · rintro ⟨tab', w1', ready', w2', c', h1, h2, -, h4, h5⟩
            simp only [Prod.mk.injEq, Outcome.returned.injEq] at h1
            obtain ⟨rfl, rfl⟩ := h1
            rw [hw] at h2
            simp only [Prod.mk.injEq, Outcome.returned.injEq] at h2
            obtain ⟨rfl, rfl⟩ := h2
            simp only [Option.some.injEq] at h4
            subst h4
            rw [hsend] at h5
            simp at h5
          · intro _
            exact ⟨tab, w1, ready, w2, c, rfl, hw, hready, rfl, rfl⟩
          · intro failure w1' h1
            simp at h1
          · intro tab' w1' failure w2' h1 h2
            simp only [Prod.mk.injEq, Outcome.returned.injEq] at h1
            obtain ⟨rfl, rfl⟩ := h1
            rw [hw] at h2
            simp at h2
        | resolve u =>
          have hval : sendToProvider env cfg fuel providerId (some c) w
              = (.returned ⟨providerId, "sent", none⟩,
                  { w2 with sends := w2.sends + 1,
                            log := w2.log
                              ++ [.tabsSendMessage tab.id ⟨"sendPrompt", c.prompt, c⟩] }) := by
            simp [sendToProvider, sendToProviderBody, hg, hw, hsend]
          rw [hval]
          refine ⟨⟨?_, ?_⟩, ?_, ?_, ?_⟩
          · intro _
            exact ⟨tab, w1, ready, w2, c, rfl, hw, hready, rfl, hsend⟩
          · intro _
            exact ⟨_, rfl, rfl⟩
          · intro _
            exact ⟨tab, w1, ready, w2, c, rfl, hw, hready, rfl, rfl⟩
          · intro failure w1' h1
            simp at h1
          · intro tab' w1' failure w2' h1 h2
            simp only [Prod.mk.injEq, Outcome.returned.injEq] at h1
            obtain ⟨rfl, rfl⟩ := h1
            rw [hw] at h2
            simp at h2

/-! ## Delivery to all providers -/

/-- C2: for every provider table with distinct keys, every context and every pattern of
capability failures, the `sendToAll` case returns (once the polling has ended) a list with one
record per enabled provider: its length is the number of enabled providers, its tags are the
enabled keys in table order, every enabled key is the tag of exactly one record, no disabled
key is a tag, and every record has status `sent` or `error`. Which deliveries fail changes
none of this. -/
theorem sendToAll_one_result_per_enabled (env : Env) (cfg : List (String × Provider))
    (fuel : Nat) (context : Option Context) (w : World)
    (hclock : ∀ k, env.dateNow k < env.dateNow (k + 1)) (hfuel : 10000 < fuel)
    (hkeys : (cfg.map (fun e => e.1)).Nodup) :
    ∃ results, (sendToAll env cfg fuel context w).1 = .returned results ∧
      results.length = (cfg.filter (fun e => e.2.enabled)).length ∧
      results.map (fun r => r.provider)
        = (cfg.filter (fun e => e.2.enabled)).map (fun e => e.1) ∧
      (∀ key provider, (key, provider) ∈ cfg → provider.enabled = true →
        (results.map (fun r => r.provider)).count key = 1) ∧
      (∀ key provider, (key, provider) ∈ cfg → provider.enabled = false →
        ∀ r ∈ results, r.provider ≠ key) ∧
      (∀ r ∈ results, r.status = "sent" ∨ r.status = "error") := by
  obtain ⟨results, hret, htags, hall⟩ :=
    sendToAllLoop_returns env cfg fuel context hclock hfuel cfg [] w
  have hsub : List.Sublist ((cfg.filter (fun e => e.2.enabled)).map (fun e => e.1))
      (cfg.map (fun e => e.1)) := (List.filter_sublist cfg).map _
  have hnodup : ((cfg.filter (fun e => e.2.enabled)).map (fun e => e.1)).Nodup :=
    hkeys.sublist hsub
  refine ⟨results, by simpa [sendToAll] using hret, ?_, htags, ?_, ?_, hall⟩
  · have := congrArg List.length htags
    simpa using this
  · intro key provider hmem hen
    rw [htags]
    apply List.count_eq_one_of_mem hnodup
    rw [List.mem_map]
    exact ⟨(key, provider), List.mem_filter.mpr ⟨hmem, by simpa using hen⟩, rfl⟩
  · intro key provider hmem hdis r hr heq
    have hin : key ∈ results.map (fun r => r.provider) :=
      List.mem_map.mpr ⟨r, hr, heq⟩
    rw [htags, List.mem_map] at hin
    obtain ⟨⟨key', provider'⟩, hmem', hk⟩ := hin
    simp only at hk
    subst hk
    rw [List.mem_filter] at hmem'
    have hsame : provider' = provider := by
      have hinj := List.inj_on_of_nodup_map hkeys hmem'.1 hmem rfl
      exact (Prod.mk.inj hinj).2
    subst hsame
    have : provider'.enabled = true := by simpa using hmem'.2
    rw [hdis] at this
    exact absurd this (by decide)

/-- The `sendToAll` case on the table of the service worker, where the five providers are
enabled. -/
theorem sendToAll_one_result_per_enabled_witness :
    ∃ results, (sendToAll readyBrowser AI_PROVIDERS 10001 (some helloContext)
        World.initial).1 = .returned results ∧
      results.length = (AI_PROVIDERS.filter (fun e => e.2.enabled)).length ∧
      results.map (fun r => r.provider)
        = (AI_PROVIDERS.filter (fun e => e.2.enabled)).map (fun e => e.1) ∧
      (∀ key provider, (key, provider) ∈ AI_PROVIDERS → provider.enabled = true →
        (results.map (fun r => r.provider)).count key = 1) ∧
      (∀ key provider, (key, provider) ∈ AI_PROVIDERS → provider.enabled = false →
        ∀ r ∈ results, r.provider ≠ key) ∧
      (∀ r ∈ results, r.status = "sent" ∨ r.status = "error") :=
  sendToAll_one_result_per_enabled readyBrowser AI_PROVIDERS 10001 (some helloContext)
    World.initial
    (by
      intro k
      simp only [readyBrowser]
      push_cast
      omega)
    (by decide) (by decide)

end UltimateAIWrapper
